import Mathlib

/-
Verification development for scripts/google-oauth-refresh.py.

The script is embedded shallowly: Python strings are modeled as their
UTF-8 byte sequences (List Nat, each element a byte value), the relevant
fragment of urllib.parse (urlencode with quote_plus, urlparse query
extraction, parse_qs) is translated byte-for-byte, the callback handler
do_GET is a pure function from the request path to the produced response
and the possibly captured authorization code, the orchestrator main is a
pure function from an abstract outside world (environment variables,
interactive input, incoming callback requests, token endpoint response)
to the observable run result (exit behaviour, printed lines, POST bodies,
opened browser URL).  json.loads is modeled by an executable parser for
the JSON fragment the token endpoint uses (objects, arrays, strings with
the standard one-character escapes, integers, booleans, null); where the
model parser fails the corresponding theorems simply do not apply, it
never succeeds where CPython would fail differently.
-/

/-- Byte strings: a Python str is modeled as its UTF-8 byte sequence. -/
abbrev Str := List Nat

/-- Embed an ASCII Lean string literal as a byte string. -/
def S (s : String) : Str := s.data.map Char.toNat

/-! urllib.parse fragment: quote_plus / urlencode -/

/-- Characters urllib never quotes: ALWAYS_SAFE, i.e. letters, digits and _.-~ . -/
def isAlwaysSafe (b : Nat) : Bool :=
  (48 ≤ b && b ≤ 57) || (65 ≤ b && b ≤ 90) || (97 ≤ b && b ≤ 122) ||
  b == 95 || b == 46 || b == 45 || b == 126

/-- Upper-case hex digit byte for a nibble, as used by urllib.parse.quote. -/
def hexUpper (n : Nat) : Nat := if n < 10 then 48 + n else 55 + n

/-- quote_plus on a single byte: safe bytes pass, space becomes plus,
everything else becomes a percent escape. -/
def quoteByte (b : Nat) : Str :=
  if isAlwaysSafe b then [b]
  else if b == 32 then [43]
  else [37, hexUpper (b / 16), hexUpper (b % 16)]

/-- urllib.parse.quote_plus with empty safe set, as urlencode uses it. -/
def quotePlus : Str → Str
  | [] => []
  | b :: t => quoteByte b ++ quotePlus t

/-- Value of a hex digit byte, both cases accepted, as urllib.parse.unquote. -/
def fromHexDigit (c : Nat) : Option Nat :=
  if 48 ≤ c ∧ c ≤ 57 then some (c - 48)
  else if 65 ≤ c ∧ c ≤ 70 then some (c - 55)
  else if 97 ≤ c ∧ c ≤ 102 then some (c - 87)
  else none

/-- Percent decoding as urllib.parse.unquote: a percent followed by two hex
digits becomes the byte, an invalid escape is kept literally. -/
def unquoteBytes : Str → Str
  | [] => []
  | 37 :: h1 :: h2 :: rest2 =>
    match fromHexDigit h1, fromHexDigit h2 with
    | some d1, some d2 => (16 * d1 + d2) :: unquoteBytes rest2
    | _, _ => 37 :: unquoteBytes (h1 :: h2 :: rest2)
  | b :: rest => b :: unquoteBytes rest

/-- The plus-to-space replacement parse_qsl applies before unquoting. -/
def plusToSpace (s : Str) : Str := s.map fun b => if b == 43 then 32 else b

/-- urllib.parse.unquote_plus. -/
def unquotePlus (s : Str) : Str := unquoteBytes (plusToSpace s)

/-! Query string splitting (str.split and parse_qsl) -/

/-- Python str.split on a one-byte separator. -/
def splitOnByte (sep : Nat) : Str → List Str
  | [] => [[]]
  | b :: t =>
    let r := splitOnByte sep t
    if b == sep then [] :: r
    else
      match r with
      | [] => [[b]]
      | x :: xs => (b :: x) :: xs

/-- Split at the first occurrence of a byte, if any. -/
def splitFirst (sep : Nat) : Str → Option (Str × Str)
  | [] => none
  | b :: t =>
    if b == sep then some ([], t)
    else
      match splitFirst sep t with
      | none => none
      | some (x, y) => some (b :: x, y)

/-- One field of a query string, as parse_qsl treats it with
keep_blank_values left False: empty fields, fields without an equals sign
and fields with an empty value are all dropped. -/
def parseField (f : Str) : Option (Str × Str) :=
  if f = [] then none
  else
    match splitFirst 61 f with
    | none => none
    | some (n, v) => if v = [] then none else some (unquotePlus n, unquotePlus v)

/-- urllib.parse.parse_qsl with default arguments. -/
def parseQsl (qs : Str) : List (Str × Str) :=
  (splitOnByte 38 qs).filterMap parseField

/-- Append one value under a key, preserving first-insertion order, as
parse_qs builds its dict of lists. -/
def addToDict (d : List (Str × List Str)) (k : Str) (v : Str) :
    List (Str × List Str) :=
  match d with
  | [] => [(k, [v])]
  | (k2, vs) :: rest =>
    if k2 = k then (k2, vs ++ [v]) :: rest else (k2, vs) :: addToDict rest k v

/-- urllib.parse.parse_qs with default arguments. -/
def parseQs (qs : Str) : List (Str × List Str) :=
  (parseQsl qs).foldl (fun d kv => addToDict d kv.1 kv.2) []

/-- Dictionary lookup on the parse_qs result. -/
def qsLookup (d : List (Str × List Str)) (k : Str) : Option (List Str) :=
  match d with
  | [] => none
  | (k2, vs) :: rest => if k2 = k then some vs else qsLookup rest k

/-- Everything before the first occurrence of a byte (the whole string if
the byte does not occur). -/
def takeBeforeByte (sep : Nat) : Str → Str
  | [] => []
  | b :: t => if b == sep then [] else b :: takeBeforeByte sep t

/-- The query component of a URL as urlparse extracts it: the fragment
(everything from the first hash) is removed, then the query is everything
after the first question mark. -/
def extractQuery (url : Str) : Str :=
  match splitFirst 63 (takeBeforeByte 35 url) with
  | none => []
  | some (_, q) => q

/-! urlencode -/

/-- One key=value field of an urlencoded query. -/
def encodePair (kv : Str × Str) : Str :=
  quotePlus kv.1 ++ 61 :: quotePlus kv.2

/-- Join fields with ampersands, as str.join does. -/
def joinAmp : List Str → Str
  | [] => []
  | [f] => f
  | f :: fs => f ++ 38 :: joinAmp fs

/-- urllib.parse.urlencode with default arguments (quote_via=quote_plus). -/
def urlencodePairs (ps : List (Str × Str)) : Str :=
  joinAmp (ps.map encodePair)

/-- Join strings with single spaces, as str.join with a space does. -/
def joinSpace : List Str → Str
  | [] => []
  | [f] => f
  | f :: fs => f ++ 32 :: joinSpace fs

/-! Constants of the script -/

/-- SCOPES constant of the script. -/
def SCOPES : List Str :=
  [S "https://www.googleapis.com/auth/adwords",
   S "https://www.googleapis.com/auth/spreadsheets"]

/-- AUTH_URI constant of the script. -/
def AUTH_URI : Str := S "https://accounts.google.com/o/oauth2/auth"

/-- TOKEN_URI constant of the script. -/
def TOKEN_URI : Str := S "https://oauth2.googleapis.com/token"

/-- REDIRECT_URI constant of the script. -/
def REDIRECT_URI : Str := S "http://localhost:8080"

/-- The auth_params dict of main, in its literal order. -/
def authParams (cid ru : Str) (scopes : List Str) : List (Str × Str) :=
  [(S "client_id", cid),
   (S "redirect_uri", ru),
   (S "response_type", S "code"),
   (S "scope", joinSpace scopes),
   (S "access_type", S "offline"),
   (S "prompt", S "consent")]

/-- The authorization URL main builds: AUTH_URI, a question mark, and the
urlencoded parameters. -/
def buildAuthUrl (cid ru : Str) (scopes : List Str) : Str :=
  AUTH_URI ++ S "?" ++ urlencodePairs (authParams cid ru scopes)

/-- The token_data dict of main, in its literal order. -/
def tokenParams (cid csec code : Str) : List (Str × Str) :=
  [(S "client_id", cid),
   (S "client_secret", csec),
   (S "code", code),
   (S "grant_type", S "authorization_code"),
   (S "redirect_uri", REDIRECT_URI)]

/-! Callback handler (OAuthCallbackHandler.do_GET) -/

/-- What one serviced GET request produces: the HTTP status and body sent,
and the value the handler assigns to the module-level auth_code variable
(none when the handler leaves it untouched). -/
structure GetResponse where
  status : Nat
  contentType : Str
  body : Str
  authCode : Option Str
deriving DecidableEq

/-- The success page byte literal of do_GET, reproduced exactly. -/
def successPage : Str :=
  S "\n                <html><body style=\"font-family: sans-serif; padding: 40px; text-align: center;\">\n                <h1>Authorization successful!</h1>\n                <p>You can close this window and return to the terminal.</p>\n                </body></html>\n            "

/-- The error page text before the interpolated error value. -/
def errorPagePre : Str :=
  S "\n                <html><body style=\"font-family: sans-serif; padding: 40px; text-align: center;\">\n                <h1>Authorization failed</h1>\n                <p>Error: "

/-- The error page text after the interpolated error value. -/
def errorPagePost : Str :=
  S "</p>\n                </body></html>\n            "

/-- do_GET: parse the query of the request path; a present code parameter
gives a 200 success page and sets auth_code to its first value, otherwise
a 400 error page embeds the first error value (default Unknown error).
parse_qs never produces an empty value list, so the catch-all arms for
some [] are unreachable. -/
def doGET (path : Str) : GetResponse :=
  let query := parseQs (extractQuery path)
  match qsLookup query (S "code") with
  | some (c :: _) =>
    { status := 200, contentType := S "text/html",
      body := successPage, authCode := some c }
  | _ =>
    let e :=
      match qsLookup query (S "error") with
      | some (er :: _) => er
      | _ => S "Unknown error"
    { status := 400, contentType := S "text/html",
      body := errorPagePre ++ e ++ errorPagePost, authCode := none }

/-! The wait loop of main: while auth_code is None: server.handle_request() -/

/-- Result of running the wait loop on a (finite) stream of incoming
requests: either some request set auth_code and the loop exited (the
server is then closed), or every request was serviced without setting it
and the process is still blocked waiting for the next connection. -/
inductive LoopOutcome where
  | captured (rs : List GetResponse) (code : Str)
  | waiting (rs : List GetResponse)
deriving DecidableEq

/-- The wait loop: service requests one at a time until one sets
auth_code. -/
def serveLoop : List Str → LoopOutcome
  | [] => LoopOutcome.waiting []
  | p :: ps =>
    match (doGET p).authCode with
    | some c => LoopOutcome.captured [doGET p] c
    | none =>
      match serveLoop ps with
      | LoopOutcome.captured rs c => LoopOutcome.captured (doGET p :: rs) c
      | LoopOutcome.waiting rs => LoopOutcome.waiting (doGET p :: rs)

/-- The requests the loop actually serviced. -/
def serviced : LoopOutcome → List GetResponse
  | LoopOutcome.captured rs _ => rs
  | LoopOutcome.waiting rs => rs

/-- The captured authorization code, if the loop terminated. -/
def capturedCode : LoopOutcome → Option Str
  | LoopOutcome.captured _ c => some c
  | LoopOutcome.waiting _ => none

/-! json.loads model (the fragment the token endpoint uses) -/

/-- Decoded JSON values as json.loads produces them (floats and unicode
escape sequences are outside the modeled fragment; the parser rejects
input containing them instead of misreading it). -/
inductive JVal where
  | str (s : Str)
  | num (n : Int)
  | bool (b : Bool)
  | null
  | arr (elems : List JVal)
  | obj (fields : List (Str × JVal))

/-- Insert or overwrite a key in a decoded object, keeping the original
key position, exactly as assignment into a Python dict does. -/
def objInsert (fields : List (Str × JVal)) (k : Str) (v : JVal) :
    List (Str × JVal) :=
  match fields with
  | [] => [(k, v)]
  | (k2, v2) :: rest =>
    if k2 = k then (k2, v) :: rest else (k2, v2) :: objInsert rest k v

/-- dict.get on a decoded object. -/
def objGet (fields : List (Str × JVal)) (k : Str) : Option JVal :=
  match fields with
  | [] => none
  | (k2, v) :: rest => if k2 = k then some v else objGet rest k

/-- JSON whitespace. -/
def isJsonWs (b : Nat) : Bool := b == 32 || b == 9 || b == 10 || b == 13

/-- Drop leading JSON whitespace. -/
def skipWs (s : Str) : Str := s.dropWhile isJsonWs

/-- Body of a JSON string after the opening quote: printable ASCII plus
the one-character escapes; anything else (including unicode escapes) is
rejected. -/
def parseJString : Str → Option (Str × Str)
  | [] => none
  | b :: rest =>
    if b == 34 then some ([], rest)
    else if b == 92 then
      match rest with
      | e :: rest2 =>
        let c :=
          if e == 34 then some 34 else if e == 92 then some 92
          else if e == 47 then some 47 else if e == 98 then some 8
          else if e == 102 then some 12 else if e == 110 then some 10
          else if e == 114 then some 13 else if e == 116 then some 9
          else none
        match c with
        | some cb =>
          match parseJString rest2 with
          | some (s, r) => some (cb :: s, r)
          | none => none
        | none => none
      | [] => none
    else if 32 ≤ b ∧ b ≤ 126 then
      match parseJString rest with
      | some (s, r) => some (b :: s, r)
      | none => none
    else none

/-- Decimal digit value. -/
def digitVal (b : Nat) : Option Nat :=
  if 48 ≤ b ∧ b ≤ 57 then some (b - 48) else none

/-- Leading run of decimal digits. -/
def takeDigits : Str → (List Nat × Str)
  | [] => ([], [])
  | b :: r =>
    match digitVal b with
    | some d => let p := takeDigits r; (d :: p.1, p.2)
    | none => ([], b :: r)

/-- Digits to a number. -/
def digitsToNat (ds : List Nat) : Nat := ds.foldl (fun a d => 10 * a + d) 0

/-- Unsigned JSON integer part: one or more digits, no leading zero. -/
def parseIntPart (s : Str) : Option (Nat × Str) :=
  match takeDigits s with
  | ([], _) => none
  | (d :: ds, rest) =>
    if d = 0 ∧ ds ≠ [] then none else some (digitsToNat (d :: ds), rest)

/-- True when the remaining input would continue the number as a float
(fraction or exponent), which is outside the modeled fragment. -/
def startsFloat : Str → Bool
  | [] => false
  | b :: _ => b == 46 || b == 101 || b == 69

/-- JSON integer literal. -/
def parseJNum (s : Str) : Option (Int × Str) :=
  match s with
  | 45 :: r =>
    match parseIntPart r with
    | some (n, rest) =>
      if startsFloat rest then none else some (-(n : Int), rest)
    | none => none
  | _ =>
    match parseIntPart s with
    | some (n, rest) =>
      if startsFloat rest then none else some ((n : Int), rest)
    | none => none

mutual

/-- JSON value parser with fuel. -/
def parseJVal : Nat → Str → Option (JVal × Str)
  | 0, _ => none
  | f + 1, s0 =>
    match skipWs s0 with
    | [] => none
    | b :: rest =>
      if b == 34 then
        match parseJString rest with
        | some (cs, r) => some (JVal.str cs, r)
        | none => none
      else if b == 123 then
        match skipWs rest with
        | 125 :: r => some (JVal.obj [], r)
        | r2 =>
          match parseJObjItems f r2 [] with
          | some (fs, r3) => some (JVal.obj fs, r3)
          | none => none
      else if b == 91 then
        match skipWs rest with
        | 93 :: r => some (JVal.arr [], r)
        | r2 =>
          match parseJArrItems f r2 [] with
          | some (vs, r3) => some (JVal.arr vs, r3)
          | none => none
      else if b == 116 then
        match rest with
        | 114 :: 117 :: 101 :: r => some (JVal.bool true, r)
        | _ => none
      else if b == 102 then
        match rest with
        | 97 :: 108 :: 115 :: 101 :: r => some (JVal.bool false, r)
        | _ => none
      else if b == 110 then
        match rest with
        | 117 :: 108 :: 108 :: r => some (JVal.null, r)
        | _ => none
      else
        match parseJNum (b :: rest) with
        | some (n, r) => some (JVal.num n, r)
        | none => none

/-- Members of a JSON object after the opening brace (first member not
yet read), accumulating with dict insertion semantics. -/
def parseJObjItems : Nat → Str → List (Str × JVal) → Option (List (Str × JVal) × Str)
  | 0, _, _ => none
  | f + 1, s, acc =>
    match skipWs s with
    | 34 :: rest =>
      match parseJString rest with
      | some (key, r1) =>
        match skipWs r1 with
        | 58 :: r2 =>
          match parseJVal f r2 with
          | some (v, r3) =>
            match skipWs r3 with
            | 44 :: r4 => parseJObjItems f r4 (objInsert acc key v)
            | 125 :: r4 => some (objInsert acc key v, r4)
            | _ => none
          | none => none
        | _ => none
      | none => none
    | _ => none

/-- Elements of a JSON array after the opening bracket (first element not
yet read). -/
def parseJArrItems : Nat → Str → List JVal → Option (List JVal × Str)
  | 0, _, _ => none
  | f + 1, s, acc =>
    match parseJVal f s with
    | some (v, r) =>
      match skipWs r with
      | 44 :: r2 => parseJArrItems f r2 (acc ++ [v])
      | 93 :: r2 => some (acc ++ [v], r2)
      | _ => none
    | none => none

end

/-- json.loads: parse one value, then only whitespace may remain.  A none
result stands for json.JSONDecodeError (or input outside the modeled
fragment). -/
def jsonParse (s : Str) : Option JVal :=
  match parseJVal (s.length + 1) s with
  | some (v, r) => if skipWs r = [] then some v else none
  | none => none

/-! Python rendering of decoded values (str / repr), used by the f-strings
of main. -/

/-- Lower-case hex digit byte, as CPython repr escapes use. -/
def hexLower (n : Nat) : Nat := if n < 10 then 48 + n else 87 + n

/-- Quote character repr chooses for a string: single quotes, unless the
string contains one and no double quote. -/
def pyStrQuote (s : Str) : Nat :=
  if s.contains 39 && !(s.contains 34) then 34 else 39

/-- repr escaping of one byte of a string under the chosen quote. -/
def pyEscByte (q b : Nat) : Str :=
  if b == 92 then [92, 92]
  else if b == q then [92, q]
  else if b == 10 then [92, 110]
  else if b == 13 then [92, 114]
  else if b == 9 then [92, 116]
  else if b < 32 || b == 127 then [92, 120, hexLower (b / 16), hexLower (b % 16)]
  else [b]

/-- repr of a Python str (ASCII range). -/
def pyStrRepr (s : Str) : Str :=
  let q := pyStrQuote s
  q :: s.foldr (fun b acc => pyEscByte q b ++ acc) [q]

/-- Decimal rendering of a Nat. -/
def natRepr (n : Nat) : Str := (Nat.toDigits 10 n).map Char.toNat

/-- repr of a Python int. -/
def intRepr (n : Int) : Str :=
  if n < 0 then 45 :: natRepr n.natAbs else natRepr n.natAbs

/-- Comma-space join used by repr of lists and dicts. -/
def joinCommaSp : List Str → Str
  | [] => []
  | [f] => f
  | f :: fs => f ++ 44 :: 32 :: joinCommaSp fs

mutual

/-- repr of a decoded JSON value, as CPython renders it. -/
def pyRepr : JVal → Str
  | JVal.str s => pyStrRepr s
  | JVal.num n => intRepr n
  | JVal.bool b => if b then S "True" else S "False"
  | JVal.null => S "None"
  | JVal.arr xs => 91 :: (joinCommaSp (pyReprList xs) ++ [93])
  | JVal.obj fs => 123 :: (joinCommaSp (pyReprFields fs) ++ [125])

/-- repr of each element of a list. -/
def pyReprList : List JVal → List Str
  | [] => []
  | v :: vs => pyRepr v :: pyReprList vs

/-- Key repr, colon, space, value repr for each dict item. -/
def pyReprFields : List (Str × JVal) → List Str
  | [] => []
  | (k, v) :: fs => (pyStrRepr k ++ 58 :: 32 :: pyRepr v) :: pyReprFields fs

end

/-- str() of a decoded value: a string is itself, everything else renders
as its repr. -/
def pyToStr (v : JVal) : Str :=
  match v with
  | JVal.str s => s
  | other => pyRepr other

/-- Python truthiness of a decoded value (the not-operator of the script). -/
def jFalsy : JVal → Bool
  | JVal.str s => s.isEmpty
  | JVal.num n => n == 0
  | JVal.bool b => !b
  | JVal.null => true
  | JVal.arr xs => xs.isEmpty
  | JVal.obj fs => fs.isEmpty

/-! Credential source (get_credentials) -/

/-- Bytes Python str.strip removes (ASCII whitespace range). -/
def isPySpace (b : Nat) : Bool := b == 32 || (9 ≤ b && b ≤ 13) || (28 ≤ b && b ≤ 31)

/-- Python str.strip. -/
def pyStrip (s : Str) : Str :=
  ((s.dropWhile isPySpace).reverse.dropWhile isPySpace).reverse

/-- One credential: the environment value when it is set and truthy,
otherwise the stripped interactive input (the script tests the value with
not, so a variable set to the empty string also falls back to the
prompt). -/
def credValue (env : Option Str) (prompted : Str) : Str :=
  match env with
  | some v => if v.isEmpty then pyStrip prompted else v
  | none => pyStrip prompted

/-! Orchestrator (main) -/

/-- How the process run ends: sys.exit with a status, main returning
normally (process status 0), blocking forever in the wait loop, or an
uncaught exception (process status 1). -/
inductive Outcome where
  | exited (code : Nat)
  | finished
  | blocked
  | crashed
deriving DecidableEq

/-- Exit status of the process for an outcome, none when the process
never exits. -/
def processExit : Outcome → Option Nat
  | Outcome.exited n => some n
  | Outcome.finished => some 0
  | Outcome.blocked => none
  | Outcome.crashed => some 1

/-- The response of the token endpoint to the one POST the script can
make: an HTTP error status with a body, or a 2xx status with a body. -/
inductive TokenHttpResult where
  | httpError (body : Str)
  | ok (body : Str)

/-- The outside world a run interacts with: the two environment
variables, what the interactive prompts would return, the incoming GET
request paths, and how the token endpoint would respond. -/
structure World where
  envClientId : Option Str
  envClientSecret : Option Str
  promptClientId : Str
  promptClientSecret : Str
  requests : List Str
  tokenResponse : TokenHttpResult

/-- get_credentials of the script. -/
def getCredentials (w : World) : Str × Str :=
  (credValue w.envClientId w.promptClientId,
   credValue w.envClientSecret w.promptClientSecret)

/-- Everything observable about a run: how it ended, the print calls in
order, the form bodies POSTed to the token endpoint, and the URL passed
to webbrowser.open if any. -/
structure RunResult where
  outcome : Outcome
  output : List Str
  postBodies : List Str
  browserOpened : Option Str

/-- The sixty equals signs of the banner lines. -/
def eq60 : Str := List.replicate 60 61

/-- The banner main prints first. -/
def bannerOut : List Str :=
  [eq60,
   S "Google OAuth Refresh Token Generator",
   S "Scopes: Google Ads + Google Sheets",
   eq60,
   S ""]

/-- Everything printed between the credential check and the wait loop. -/
def preLoopOut (cid : Str) : List Str :=
  bannerOut ++
    [S "Opening browser for authorization...",
     S "If browser doesn\x27t open, go to:\n" ++
       buildAuthUrl cid REDIRECT_URI SCOPES ++ S "\n",
     S "Waiting for authorization..."]

/-- The run result when the decoded token response has no truthy
refresh_token: the error message and the formatted decoded response are
printed and the process exits 1. -/
def noRefreshResult (out0 : List Str) (postBody : Str) (tokens : JVal)
    (aurl : Str) : RunResult :=
  { outcome := Outcome.exited 1,
    output := out0 ++ [S "Error: No refresh token in response",
                       S "Response: " ++ pyToStr tokens],
    postBodies := [postBody],
    browserOpened := some aurl }

/-- The run result of the success tail of main. -/
def successResult (out0 : List Str) (postBody : Str) (rt : JVal)
    (aurl : Str) : RunResult :=
  { outcome := Outcome.finished,
    output := out0 ++
      [S "", eq60, S "SUCCESS! Here\x27s your new refresh token:", eq60, S "",
       pyToStr rt, S "", eq60, S "Update your .env file:",
       S "GOOGLE_ADS_REFRESH_TOKEN=" ++ pyToStr rt, eq60],
    postBodies := [postBody],
    browserOpened := some aurl }

/-- The token exchange step of main, reached with the captured code after
the server is closed. -/
def exchangeStep (w : World) (cid csec code : Str) : RunResult :=
  let aurl := buildAuthUrl cid REDIRECT_URI SCOPES
  let postBody := urlencodePairs (tokenParams cid csec code)
  let out0 := preLoopOut cid ++ [S "\nExchanging code for tokens..."]
  match w.tokenResponse with
  | TokenHttpResult.httpError ebody =>
    { outcome := Outcome.exited 1,
      output := out0 ++ [S "Error: " ++ ebody],
      postBodies := [postBody],
      browserOpened := some aurl }
  | TokenHttpResult.ok rbody =>
    match jsonParse rbody with
    | none =>
      { outcome := Outcome.crashed, output := out0,
        postBodies := [postBody], browserOpened := some aurl }
    | some (JVal.obj fields) =>
      match objGet fields (S "refresh_token") with
      | some rt =>
        if jFalsy rt then noRefreshResult out0 postBody (JVal.obj fields) aurl
        else successResult out0 postBody rt aurl
      | none => noRefreshResult out0 postBody (JVal.obj fields) aurl
    | some _ =>
      { outcome := Outcome.crashed, output := out0,
        postBodies := [postBody], browserOpened := some aurl }

/-- main after the credential check succeeded: open the browser, run the
wait loop, then exchange the captured code. -/
def mainAfterCreds (w : World) (cid csec : Str) : RunResult :=
  match serveLoop w.requests with
  | LoopOutcome.waiting _ =>
    { outcome := Outcome.blocked,
      output := preLoopOut cid,
      postBodies := [],
      browserOpened := some (buildAuthUrl cid REDIRECT_URI SCOPES) }
  | LoopOutcome.captured _ code => exchangeStep w cid csec code

/-- main of the script, as a function of the outside world. -/
def runMain (w : World) : RunResult :=
  if ((getCredentials w).1).isEmpty || ((getCredentials w).2).isEmpty then
    { outcome := Outcome.exited 1,
      output := bannerOut ++ [S "Error: Missing client ID or secret"],
      postBodies := [],
      browserOpened := none }
  else
    mainAfterCreds w (getCredentials w).1 (getCredentials w).2

/-- Executable substring test, used to state what a printed line does or
does not contain. -/
def containsSubstr (p : Str) : Str → Bool
  | [] => List.isPrefixOf p []
  | b :: s => List.isPrefixOf p (b :: s) || containsSubstr p s

/-! Claims about the callback handler -/

/-- C4: every GET request whose query string contains a code parameter is
answered with HTTP 200, and auth_code is set to exactly the first value
of that parameter. -/
theorem claim_C4 (p c : Str) (cs : List Str)
    (h : qsLookup (parseQs (extractQuery p)) (S "code") = some (c :: cs)) :
    (doGET p).status = 200 ∧ (doGET p).authCode = some c ∧
    (doGET p).body = successPage := by
  simp [doGET, h]

/-- Witness for claim_C4 at the concrete request of the spec. -/
theorem claim_C4_witness :
    (doGET (S "/?code=ABC123")).status = 200 ∧
    (doGET (S "/?code=ABC123")).authCode = some (S "ABC123") ∧
    (doGET (S "/?code=ABC123")).body = successPage :=
  claim_C4 (S "/?code=ABC123") (S "ABC123") [] rfl

/-- C5: every GET request without a code parameter is answered with HTTP
400 and an HTML page embedding the first error value verbatim; with no
error parameter either, the embedded message is exactly Unknown error. -/
theorem claim_C5 (p : Str)
    (h : qsLookup (parseQs (extractQuery p)) (S "code") = none) :
    (doGET p).status = 400 ∧
    (∀ e es, qsLookup (parseQs (extractQuery p)) (S "error") = some (e :: es) →
      (doGET p).body = errorPagePre ++ e ++ errorPagePost) ∧
    (qsLookup (parseQs (extractQuery p)) (S "error") = none →
      (doGET p).body = errorPagePre ++ S "Unknown error" ++ errorPagePost) := by
  refine ⟨?_, ?_, ?_⟩
  · simp only [doGET, h]
  · intro e es he
    simp only [doGET, h, he]
  · intro hne
    simp only [doGET, h, hne]

/-- Witness for claim_C5 at the two concrete requests of the spec. -/
theorem claim_C5_witness :
    (doGET (S "/?error=access_denied")).status = 400 ∧
    (doGET (S "/?error=access_denied")).body =
      errorPagePre ++ S "access_denied" ++ errorPagePost ∧
    (doGET (S "/")).body =
      errorPagePre ++ S "Unknown error" ++ errorPagePost :=
  ⟨(claim_C5 (S "/?error=access_denied") rfl).1,
   (claim_C5 (S "/?error=access_denied") rfl).2.1 (S "access_denied") [] rfl,
   (claim_C5 (S "/") rfl).2.2 rfl⟩

/-- C10: when a request carries both a code and an error parameter, the
code branch wins: HTTP 200, auth_code set to the first code value, and
the success page (which does not mention the error) is sent. -/
theorem claim_C10 (p c e : Str) (cs es : List Str)
    (hc : qsLookup (parseQs (extractQuery p)) (S "code") = some (c :: cs))
    (he : qsLookup (parseQs (extractQuery p)) (S "error") = some (e :: es)) :
    (doGET p).status = 200 ∧ (doGET p).authCode = some c ∧
    (doGET p).body = successPage := by
  simp [doGET, hc]

/-- Witness for claim_C10 at a request carrying both parameters. -/
theorem claim_C10_witness :
    (doGET (S "/?code=AB12&error=denied")).status = 200 ∧
    (doGET (S "/?code=AB12&error=denied")).authCode = some (S "AB12") ∧
    (doGET (S "/?code=AB12&error=denied")).body = successPage :=
  claim_C10 (S "/?code=AB12&error=denied") (S "AB12") (S "denied") [] [] rfl rfl

/-! Claims about the wait loop -/

/-- C1 counterexample: after a request that carries only an error
parameter the loop keeps servicing requests, so this two-request run
services two requests, not exactly one. -/
theorem claim_C1_counterexample :
    (serviced (serveLoop [S "/?error=access_denied", S "/?code=ABC123"])).length = 2 ∧
    (serviced (serveLoop [S "/?error=access_denied", S "/?code=ABC123"])).length ≠ 1 := by
  constructor
  · rfl
  · decide

/-- C1 amended: at most one capture ever happens; the loop stops
immediately after the first request that sets auth_code (that request is
the last serviced one, all earlier serviced requests set nothing), and as
long as no request sets auth_code the loop keeps going with nothing
captured. -/
theorem claim_C1_amended_thm (reqs : List Str) :
    (∀ rs c, serveLoop reqs = LoopOutcome.captured rs c →
      ∃ pre r, rs = pre ++ [r] ∧ r.authCode = some c ∧
        ∀ x ∈ pre, x.authCode = none) ∧
    (∀ rs, serveLoop reqs = LoopOutcome.waiting rs →
      ∀ x ∈ rs, x.authCode = none) := by
  induction reqs with
  | nil =>
    constructor
    · intro rs c h
      simp [serveLoop] at h
    · intro rs h
      simp [serveLoop] at h
      subst h
      intro x hx
      simp at hx
  | cons p ps ih =>
    obtain ⟨ih1, ih2⟩ := ih
    cases hac : (doGET p).authCode with
    | some c0 =>
      constructor
      · intro rs c h
        simp [serveLoop, hac] at h
        obtain ⟨hrs, hc⟩ := h
        refine ⟨[], doGET p, by simp [hrs], ?_, by simp⟩
        rw [hac, hc]
      · intro rs h
        simp [serveLoop, hac] at h
    | none =>
      cases hrec : serveLoop ps with
      | captured rs0 c0 =>
        constructor
        · intro rs c h
          simp [serveLoop, hac, hrec] at h
          obtain ⟨hrs, hc⟩ := h
          obtain ⟨pre, r, hsplit, hr, hall⟩ := ih1 rs0 c0 hrec
          refine ⟨doGET p :: pre, r, by rw [← hrs, hsplit]; simp, by rw [hr, hc], ?_⟩
          intro x hx
          rcases List.mem_cons.mp hx with h1 | h2
          · rw [h1, hac]
          · exact hall x h2
        · intro rs h
          simp [serveLoop, hac, hrec] at h
      | waiting rs0 =>
        constructor
        · intro rs c h
          simp [serveLoop, hac, hrec] at h
        · intro rs h
          simp [serveLoop, hac, hrec] at h
          subst h
          intro x hx
          rcases List.mem_cons.mp hx with h1 | h2
          · rw [h1, hac]
          · exact ih2 rs0 hrec x h2

/-- Witness for claim_C1_amended_thm on a concrete one-request run. -/
theorem claim_C1_witness :
    ∃ pre r, serviced (serveLoop [S "/?code=ABC123"]) = pre ++ [r] ∧
      r.authCode = some (S "ABC123") ∧ ∀ x ∈ pre, x.authCode = none :=
  (claim_C1_amended_thm [S "/?code=ABC123"]).1
    [doGET (S "/?code=ABC123")] (S "ABC123") rfl

/-- A run whose only incoming request is an error redirect, with valid
credentials in the environment. -/
def wErrOnly : World :=
  { envClientId := some (S "client-id-123"),
    envClientSecret := some (S "client-secret-456"),
    promptClientId := S "", promptClientSecret := S "",
    requests := [S "/?error=access_denied"],
    tokenResponse := TokenHttpResult.ok (S "\x7b\x7d") }

/-- C2 counterexample: when the first (and only) serviced request is an
error redirect, the process never exits at all (it stays blocked in the
wait loop), instead of exiting with a non-zero status. -/
theorem claim_C2_counterexample :
    processExit (runMain wErrOnly).outcome = none ∧
    (runMain wErrOnly).outcome = Outcome.blocked := by
  constructor
  · rfl
  · rfl

/-- C2 amended: a serviced request without a code is answered 400 and
does not end the flow: the loop result on the remaining requests is
unchanged, and when no request ever carries a code the process neither
exits nor POSTs to the token endpoint. -/
theorem claim_C2_amended_thm (w : World) (p : Str) (ps : List Str)
    (hreq : w.requests = p :: ps)
    (hnc : (doGET p).authCode = none) :
    (doGET p).status = 400 ∧
    serviced (serveLoop w.requests) = doGET p :: serviced (serveLoop ps) ∧
    capturedCode (serveLoop w.requests) = capturedCode (serveLoop ps) ∧
    (∀ rs, serveLoop w.requests = LoopOutcome.waiting rs →
      ((getCredentials w).1).isEmpty = false →
      ((getCredentials w).2).isEmpty = false →
      processExit (runMain w).outcome = none ∧ (runMain w).postBodies = []) := by
  refine ⟨?_, ?_, ?_, ?_⟩
  · unfold doGET at hnc ⊢
    rcases hql : qsLookup (parseQs (extractQuery p)) (S "code") with _ | vs
    · simp [hql]
    · cases vs with
      | nil => simp [hql]
      | cons c cs => simp [hql] at hnc
  · rw [hreq]
    cases hrec : serveLoop ps <;> simp [serveLoop, hnc, hrec, serviced]
  · rw [hreq]
    cases hrec : serveLoop ps <;> simp [serveLoop, hnc, hrec, capturedCode]
  · intro rs hw h1 h2
    simp [runMain, h1, h2, mainAfterCreds, hw, processExit]

/-- Witness for claim_C2_amended_thm on the concrete one-request run. -/
theorem claim_C2_witness :
    (doGET (S "/?error=access_denied")).status = 400 ∧
    processExit (runMain wErrOnly).outcome = none ∧
    (runMain wErrOnly).postBodies = [] :=
  ⟨(claim_C2_amended_thm wErrOnly (S "/?error=access_denied") [] rfl rfl).1,
   ((claim_C2_amended_thm wErrOnly (S "/?error=access_denied") [] rfl rfl).2.2.2
      [doGET (S "/?error=access_denied")] rfl rfl rfl).1,
   ((claim_C2_amended_thm wErrOnly (S "/?error=access_denied") [] rfl rfl).2.2.2
      [doGET (S "/?error=access_denied")] rfl rfl rfl).2⟩

/-! Claims about credentials and the token exchange -/

/-- C6: each credential comes from its environment variable (used as-is
when set and non-empty), the stripped interactive input is used when the
variable is absent, and if either resulting value is empty the run ends
with exit status 1 before the browser is opened or any POST is made. -/
theorem claim_C6 (w : World) :
    (w.envClientId = none →
      (getCredentials w).1 = pyStrip w.promptClientId) ∧
    (w.envClientSecret = none →
      (getCredentials w).2 = pyStrip w.promptClientSecret) ∧
    (∀ v, w.envClientId = some v → v.isEmpty = false →
      (getCredentials w).1 = v) ∧
    (∀ v, w.envClientSecret = some v → v.isEmpty = false →
      (getCredentials w).2 = v) ∧
    ((((getCredentials w).1).isEmpty || ((getCredentials w).2).isEmpty) = true →
      (runMain w).outcome = Outcome.exited 1 ∧
      (runMain w).postBodies = [] ∧
      (runMain w).browserOpened = none ∧
      S "Error: Missing client ID or secret" ∈ (runMain w).output) := by
  refine ⟨?_, ?_, ?_, ?_, ?_⟩
  · intro h; simp [getCredentials, credValue, h]
  · intro h; simp [getCredentials, credValue, h]
  · intro v h hv; simp [getCredentials, credValue, h, hv]
  · intro v h hv; simp [getCredentials, credValue, h, hv]
  · intro h
    simp [runMain, h]

/-- A world where the client id must be prompted and the secret ends up
empty after both the environment and the prompt give nothing. -/
def wC6 : World :=
  { envClientId := none, envClientSecret := some (S ""),
    promptClientId := S "  my-id  ", promptClientSecret := S "",
    requests := [], tokenResponse := TokenHttpResult.ok (S "\x7b\x7d") }

/-- Witness for claim_C6: the prompted id is stripped, and the empty
secret aborts the run before any network step. -/
theorem claim_C6_witness :
    (getCredentials wC6).1 = pyStrip (S "  my-id  ") ∧
    (runMain wC6).outcome = Outcome.exited 1 ∧
    (runMain wC6).postBodies = [] ∧
    (runMain wC6).browserOpened = none :=
  ⟨(claim_C6 wC6).1 rfl,
   ((claim_C6 wC6).2.2.2.2 rfl).1,
   ((claim_C6 wC6).2.2.2.2 rfl).2.1,
   ((claim_C6 wC6).2.2.2.2 rfl).2.2.1⟩

/-- C7: an HTTP error status from the token endpoint makes the run print
the error body, exit with status 1, and POST exactly once (the single
form body built for the exchange). -/
theorem claim_C7 (w : World) (rs : List GetResponse) (code ebody : Str)
    (h1 : ((getCredentials w).1).isEmpty = false)
    (h2 : ((getCredentials w).2).isEmpty = false)
    (hcap : serveLoop w.requests = LoopOutcome.captured rs code)
    (htok : w.tokenResponse = TokenHttpResult.httpError ebody) :
    (runMain w).outcome = Outcome.exited 1 ∧
    (S "Error: " ++ ebody) ∈ (runMain w).output ∧
    (runMain w).postBodies =
      [urlencodePairs
        (tokenParams (getCredentials w).1 (getCredentials w).2 code)] := by
  have hrm : runMain w =
      exchangeStep w (getCredentials w).1 (getCredentials w).2 code := by
    simp [runMain, h1, h2, mainAfterCreds, hcap]
  rw [hrm]
  simp [exchangeStep, htok]

/-- A run that captures a code and then receives an HTTP 400 from the
token endpoint. -/
def wHttpErr : World :=
  { envClientId := some (S "client-id-123"),
    envClientSecret := some (S "client-secret-456"),
    promptClientId := S "", promptClientSecret := S "",
    requests := [S "/?code=CODE-A"],
    tokenResponse := TokenHttpResult.httpError (S "\x7b\"error\": \"invalid_grant\"\x7d") }

/-- Witness for claim_C7 at the concrete run. -/
theorem claim_C7_witness :
    (runMain wHttpErr).outcome = Outcome.exited 1 ∧
    (S "Error: " ++ S "\x7b\"error\": \"invalid_grant\"\x7d") ∈ (runMain wHttpErr).output ∧
    (runMain wHttpErr).postBodies =
      [urlencodePairs
        (tokenParams (getCredentials wHttpErr).1 (getCredentials wHttpErr).2
          (S "CODE-A"))] :=
  claim_C7 wHttpErr [doGET (S "/?code=CODE-A")] (S "CODE-A")
    (S "\x7b\"error\": \"invalid_grant\"\x7d") rfl rfl rfl rfl

/-- The concrete 2xx token response body whose JSON object maps
refresh_token to the empty string. -/
def bodyNoRt : Str := S "\x7b\"refresh_token\": \"\"\x7d"

/-- A run that captures a code and then receives that body with HTTP 200. -/
def wNoRt : World :=
  { envClientId := some (S "client-id-123"),
    envClientSecret := some (S "client-secret-456"),
    promptClientId := S "", promptClientSecret := S "",
    requests := [S "/?code=CODE-B"],
    tokenResponse := TokenHttpResult.ok bodyNoRt }

set_option maxRecDepth 8000 in
/-- C8 counterexample: on this 2xx response whose decoded object maps
refresh_token to an empty value, the process does exit 1, but no printed
line contains the raw response body (what is printed is the repr of the
decoded dict, whose quoting differs from the raw JSON text). -/
theorem claim_C8_counterexample :
    processExit (runMain wNoRt).outcome = some 1 ∧
    ∀ line ∈ (runMain wNoRt).output, containsSubstr bodyNoRt line = false := by
  constructor
  · rfl
  · decide

/-- C8 amended: a 2xx response whose decoded JSON object lacks
refresh_token, or maps it to the empty string, makes the process print
the fixed error message together with the str() rendering of the decoded
object (not the raw body text) and exit with status 1. -/
theorem claim_C8_amended_thm (w : World) (rs : List GetResponse)
    (code body : Str) (fields : List (Str × JVal))
    (h1 : ((getCredentials w).1).isEmpty = false)
    (h2 : ((getCredentials w).2).isEmpty = false)
    (hcap : serveLoop w.requests = LoopOutcome.captured rs code)
    (htok : w.tokenResponse = TokenHttpResult.ok body)
    (hjson : jsonParse body = some (JVal.obj fields))
    (hrt : objGet fields (S "refresh_token") = none ∨
           objGet fields (S "refresh_token") = some (JVal.str [])) :
    (runMain w).outcome = Outcome.exited 1 ∧
    S "Error: No refresh token in response" ∈ (runMain w).output ∧
    (S "Response: " ++ pyRepr (JVal.obj fields)) ∈ (runMain w).output := by
  have hrm : runMain w =
      exchangeStep w (getCredentials w).1 (getCredentials w).2 code := by
    simp [runMain, h1, h2, mainAfterCreds, hcap]
  rw [hrm]
  rcases hrt with hrt | hrt <;>
    simp [exchangeStep, htok, hjson, hrt, noRefreshResult, jFalsy, pyToStr]

/-- Witness for claim_C8_amended_thm at the concrete run. -/
theorem claim_C8_witness :
    (runMain wNoRt).outcome = Outcome.exited 1 ∧
    S "Error: No refresh token in response" ∈ (runMain wNoRt).output ∧
    (S "Response: " ++ pyRepr (JVal.obj [(S "refresh_token", JVal.str [])])) ∈
      (runMain wNoRt).output :=
  claim_C8_amended_thm wNoRt [doGET (S "/?code=CODE-B")] (S "CODE-B") bodyNoRt
    [(S "refresh_token", JVal.str [])] rfl rfl rfl rfl rfl (Or.inr rfl)

/-- The concrete 2xx token response body of the spec example. -/
def bodyRtOk : Str := S "\x7b\"refresh_token\": \"rtk_1\"\x7d"

/-- A run that captures a code and then receives that body with HTTP 200. -/
def wRtOk : World :=
  { envClientId := some (S "client-id-123"),
    envClientSecret := some (S "client-secret-456"),
    promptClientId := S "", promptClientSecret := S "",
    requests := [S "/?code=CODE-C"],
    tokenResponse := TokenHttpResult.ok bodyRtOk }

/-- C9: a 2xx response whose decoded JSON object maps refresh_token to
the string rtk_1 makes the process print rtk_1 itself and the exact line
GOOGLE_ADS_REFRESH_TOKEN=rtk_1, and finish with exit status 0. -/
theorem claim_C9 (w : World) (rs : List GetResponse)
    (code body : Str) (fields : List (Str × JVal))
    (h1 : ((getCredentials w).1).isEmpty = false)
    (h2 : ((getCredentials w).2).isEmpty = false)
    (hcap : serveLoop w.requests = LoopOutcome.captured rs code)
    (htok : w.tokenResponse = TokenHttpResult.ok body)
    (hjson : jsonParse body = some (JVal.obj fields))
    (hrt : objGet fields (S "refresh_token") = some (JVal.str (S "rtk_1"))) :
    processExit (runMain w).outcome = some 0 ∧
    S "rtk_1" ∈ (runMain w).output ∧
    S "GOOGLE_ADS_REFRESH_TOKEN=rtk_1" ∈ (runMain w).output := by
  have hrm : runMain w =
      exchangeStep w (getCredentials w).1 (getCredentials w).2 code := by
    simp [runMain, h1, h2, mainAfterCreds, hcap]
  have hfal : jFalsy (JVal.str (S "rtk_1")) = false := by decide
  have hs : pyToStr (JVal.str (S "rtk_1")) = S "rtk_1" := rfl
  have hline : S "GOOGLE_ADS_REFRESH_TOKEN=rtk_1" =
      S "GOOGLE_ADS_REFRESH_TOKEN=" ++ pyToStr (JVal.str (S "rtk_1")) := by decide
  rw [hrm, hline]
  simp [exchangeStep, htok, hjson, hrt, hfal, successResult, processExit, hs]

/-- Witness for claim_C9 at the concrete run of the spec example. -/
theorem claim_C9_witness :
    processExit (runMain wRtOk).outcome = some 0 ∧
    S "rtk_1" ∈ (runMain wRtOk).output ∧
    S "GOOGLE_ADS_REFRESH_TOKEN=rtk_1" ∈ (runMain wRtOk).output :=
  claim_C9 wRtOk [doGET (S "/?code=CODE-C")] (S "CODE-C") bodyRtOk
    [(S "refresh_token", JVal.str (S "rtk_1"))] rfl rfl rfl rfl rfl rfl

/-! Supporting lemmas for the authorization URL roundtrip (C3) -/

/-- Bytes that can occur in quote_plus output. -/
def encOK (c : Nat) : Bool := isAlwaysSafe c || c == 43 || c == 37

/-- Hex digits emitted by quote are always in the safe set. -/
lemma hexUpper_safe (d : Nat) (h : d < 16) : isAlwaysSafe (hexUpper d) = true := by
  interval_cases d <;> decide

/-- Hex digits emitted by quote are not the plus byte. -/
lemma hexUpper_ne_43 (d : Nat) (h : d < 16) : hexUpper d ≠ 43 := by
  interval_cases d <;> decide

/-- unquote inverts the hex digits quote emits. -/
lemma fromHexDigit_hexUpper (d : Nat) (h : d < 16) :
    fromHexDigit (hexUpper d) = some d := by
  interval_cases d <;> decide

/-- Every byte of the quoting of one byte lies in the output set. -/
lemma mem_quoteByte_encOK (b : Nat) (hb : b < 256) :
    ∀ c ∈ quoteByte b, encOK c = true := by
  intro c hc
  unfold quoteByte at hc
  by_cases hs : isAlwaysSafe b = true
  · rw [if_pos hs] at hc
    simp at hc
    subst hc
    simp [encOK, hs]
  · rw [if_neg hs] at hc
    by_cases h32 : (b == 32) = true
    · rw [if_pos h32] at hc
      simp at hc
      subst hc
      decide
    · rw [if_neg h32] at hc
      have h16a : b / 16 < 16 := by omega
      have h16b : b % 16 < 16 := by omega
      simp at hc
      rcases hc with hc | hc | hc <;> subst hc
      · decide
      · simp [encOK, hexUpper_safe _ h16a]
      · simp [encOK, hexUpper_safe _ h16b]

/-- Every byte of quote_plus output lies in the output set. -/
lemma mem_quotePlus_encOK (s : Str) (hb : ∀ b ∈ s, b < 256) :
    ∀ c ∈ quotePlus s, encOK c = true := by
  induction s with
  | nil => intro c hc; simp [quotePlus] at hc
  | cons b t ih =>
    intro c hc
    rw [show quotePlus (b :: t) = quoteByte b ++ quotePlus t from rfl] at hc
    rcases List.mem_append.mp hc with hc | hc
    · exact mem_quoteByte_encOK b (hb b (List.mem_cons_self b t)) c hc
    · exact ih (fun x hx => hb x (List.mem_cons_of_mem b hx)) c hc

/-- A byte outside the output set never occurs in quote_plus output. -/
lemma not_mem_quotePlus (s : Str) (hb : ∀ b ∈ s, b < 256)
    (c : Nat) (hc : encOK c = false) : c ∉ quotePlus s := by
  intro hm
  have := mem_quotePlus_encOK s hb c hm
  rw [this] at hc
  simp at hc

/-- quote_plus never produces the empty string from a non-empty one. -/
lemma quotePlus_ne_nil (v : Str) (h : v ≠ []) : quotePlus v ≠ [] := by
  cases v with
  | nil => simp at h
  | cons b t =>
    rw [show quotePlus (b :: t) = quoteByte b ++ quotePlus t from rfl]
    have hqb : quoteByte b ≠ [] := by
      unfold quoteByte
      split
      · simp
      · split <;> simp
    simp [hqb]

/-- Percent decoding steps over a byte that is not a percent sign. -/
lemma unquoteBytes_cons_ne (b : Nat) (s : Str) (h : b ≠ 37) :
    unquoteBytes (b :: s) = b :: unquoteBytes s := by
  cases s with
  | nil => simp [unquoteBytes, h]
  | cons x t =>
    cases t with
    | nil => simp [unquoteBytes, h]
    | cons y u => simp [unquoteBytes, h]

/-- Decoding inverts encoding byte for byte. -/
lemma unquotePlus_quotePlus : ∀ s : Str, (∀ b ∈ s, b < 256) →
    unquotePlus (quotePlus s) = s := by
  intro s
  induction s with
  | nil => intro _; rfl
  | cons b t ih =>
    intro hb
    have hblt : b < 256 := hb b (List.mem_cons_self b t)
    have iht : unquoteBytes (plusToSpace (quotePlus t)) = t :=
      ih fun x hx => hb x (List.mem_cons_of_mem b hx)
    show unquoteBytes (plusToSpace (quoteByte b ++ quotePlus t)) = b :: t
    have hsplit : plusToSpace (quoteByte b ++ quotePlus t) =
        plusToSpace (quoteByte b) ++ plusToSpace (quotePlus t) := by
      simp [plusToSpace]
    rw [hsplit]
    by_cases hs : isAlwaysSafe b = true
    · have hq : quoteByte b = [b] := by simp [quoteByte, hs]
      have hb43 : (b == 43) = false := by
        refine beq_eq_false_iff_ne.mpr fun hc => ?_
        subst hc
        exact absurd hs (by decide)
      have hb37 : b ≠ 37 := by
        intro hc
        subst hc
        exact absurd hs (by decide)
      have hpts1 : plusToSpace [b] = [b] := by
        simp [plusToSpace]
        intro hc
        exact absurd hc (beq_eq_false_iff_ne.mp hb43)
      rw [hq, hpts1, List.singleton_append, unquoteBytes_cons_ne b _ hb37, iht]
    · by_cases h32 : b = 32
      · subst h32
        have hq : quoteByte 32 = [43] := by decide
        rw [hq, show plusToSpace [43] = [32] from rfl, List.singleton_append,
          unquoteBytes_cons_ne 32 _ (by decide), iht]
      · have hq : quoteByte b =
            [37, hexUpper (b / 16), hexUpper (b % 16)] := by
          have h32b : (b == 32) = false := beq_eq_false_iff_ne.mpr h32
          simp [quoteByte, hs, h32b]
        have hd1 : b / 16 < 16 := by omega
        have hd2 : b % 16 < 16 := by omega
        have hpts : plusToSpace [37, hexUpper (b / 16), hexUpper (b % 16)] =
            [37, hexUpper (b / 16), hexUpper (b % 16)] := by
          simp [plusToSpace]
          constructor
          · intro hc; exact absurd hc (hexUpper_ne_43 _ hd1)
          · intro hc; exact absurd hc (hexUpper_ne_43 _ hd2)
        rw [hq, hpts]
        show unquoteBytes (37 :: hexUpper (b / 16) :: hexUpper (b % 16) ::
          plusToSpace (quotePlus t)) = b :: t
        rw [show unquoteBytes (37 :: hexUpper (b / 16) :: hexUpper (b % 16) ::
            plusToSpace (quotePlus t)) =
            (16 * (b / 16) + b % 16) :: unquoteBytes (plusToSpace (quotePlus t)) by
          simp [unquoteBytes, fromHexDigit_hexUpper _ hd1, fromHexDigit_hexUpper _ hd2]]
        rw [iht]
        congr 1
        omega

/-- splitFirst finds the separator right after a separator-free chunk. -/
lemma splitFirst_append_of_not_mem (sep : Nat) (a b : Str) (h : sep ∉ a) :
    splitFirst sep (a ++ sep :: b) = some (a, b) := by
  induction a with
  | nil => simp [splitFirst]
  | cons x xs ih =>
    have hx : (x == sep) = false := by
      refine beq_eq_false_iff_ne.mpr fun hc => h ?_
      rw [hc]
      exact List.mem_cons_self sep xs
    have ihx := ih fun hm => h (List.mem_cons_of_mem x hm)
    simp [splitFirst, hx, ihx]

/-- str.split leaves a separator-free string whole. -/
lemma splitOnByte_of_not_mem (sep : Nat) (f : Str) (h : sep ∉ f) :
    splitOnByte sep f = [f] := by
  induction f with
  | nil => rfl
  | cons x xs ih =>
    have hx : (x == sep) = false := by
      refine beq_eq_false_iff_ne.mpr fun hc => h ?_
      rw [hc]
      exact List.mem_cons_self sep xs
    have ihx := ih fun hm => h (List.mem_cons_of_mem x hm)
    simp [splitOnByte, hx, ihx]

/-- str.split peels one separator-free field off the front. -/
lemma splitOnByte_append (sep : Nat) (f r : Str) (h : sep ∉ f) :
    splitOnByte sep (f ++ sep :: r) = f :: splitOnByte sep r := by
  induction f with
  | nil => simp [splitOnByte]
  | cons x xs ih =>
    have hx : (x == sep) = false := by
      refine beq_eq_false_iff_ne.mpr fun hc => h ?_
      rw [hc]
      exact List.mem_cons_self sep xs
    have ihx := ih fun hm => h (List.mem_cons_of_mem x hm)
    simp [splitOnByte, hx, ihx]

/-- Parsing one urlencoded field recovers the original pair. -/
lemma parseField_encodePair (k v : Str)
    (hk : ∀ b ∈ k, b < 256) (hv : ∀ b ∈ v, b < 256) (hvne : v ≠ []) :
    parseField (encodePair (k, v)) = some (k, v) := by
  have henc : encodePair (k, v) = quotePlus k ++ 61 :: quotePlus v := rfl
  rw [henc]
  unfold parseField
  have hne : quotePlus k ++ 61 :: quotePlus v ≠ [] := by simp
  rw [if_neg hne,
    splitFirst_append_of_not_mem 61 _ _ (not_mem_quotePlus k hk 61 (by decide))]
  simp [quotePlus_ne_nil v hvne, unquotePlus_quotePlus k hk,
    unquotePlus_quotePlus v hv]

/-- Bytes that can occur in one urlencoded field. -/
def fieldOK (c : Nat) : Bool := encOK c || c == 61

/-- Every byte of an urlencoded field is in the field set. -/
lemma mem_encodePair_fieldOK (kv : Str × Str)
    (hk : ∀ b ∈ kv.1, b < 256) (hv : ∀ b ∈ kv.2, b < 256) :
    ∀ c ∈ encodePair kv, fieldOK c = true := by
  intro c hc
  unfold encodePair at hc
  rcases List.mem_append.mp hc with hc | hc
  · have := mem_quotePlus_encOK _ hk c hc
    simp [fieldOK, this]
  · rcases List.mem_cons.mp hc with hc | hc
    · subst hc; decide
    · have := mem_quotePlus_encOK _ hv c hc
      simp [fieldOK, this]

/-- The ampersand never occurs inside one urlencoded field. -/
lemma amp_not_mem_encodePair (kv : Str × Str)
    (hk : ∀ b ∈ kv.1, b < 256) (hv : ∀ b ∈ kv.2, b < 256) :
    (38 : Nat) ∉ encodePair kv := by
  intro hm
  exact absurd (mem_encodePair_fieldOK kv hk hv 38 hm) (by decide)

/-- parse_qsl inverts urlencode on any pair list whose byte strings are
genuine byte strings and whose values are non-empty. -/
lemma parseQsl_urlencodePairs : ∀ ps : List (Str × Str),
    (∀ kv ∈ ps, (∀ b ∈ kv.1, b < 256) ∧ (∀ b ∈ kv.2, b < 256) ∧ kv.2 ≠ []) →
    parseQsl (urlencodePairs ps) = ps := by
  intro ps
  induction ps with
  | nil => intro _; rfl
  | cons kv tl ih =>
    intro h
    obtain ⟨hk, hv, hvne⟩ := h kv (List.mem_cons_self kv tl)
    have hfield : parseField (encodePair kv) = some kv := by
      have := parseField_encodePair kv.1 kv.2 hk hv hvne
      simpa using this
    have hamp := amp_not_mem_encodePair kv hk hv
    cases tl with
    | nil =>
      show parseQsl (joinAmp [encodePair kv]) = [kv]
      unfold parseQsl
      rw [show joinAmp [encodePair kv] = encodePair kv from rfl,
        splitOnByte_of_not_mem 38 _ hamp]
      simp [List.filterMap, hfield]
    | cons kv2 tl2 =>
      have ihtl := ih fun x hx => h x (List.mem_cons_of_mem kv hx)
      show parseQsl (joinAmp (encodePair kv :: encodePair kv2 ::
        List.map encodePair tl2)) = kv :: kv2 :: tl2
      unfold parseQsl
      rw [show joinAmp (encodePair kv :: encodePair kv2 :: List.map encodePair tl2)
          = encodePair kv ++ 38 :: joinAmp (encodePair kv2 :: List.map encodePair tl2)
          from rfl,
        splitOnByte_append 38 _ _ hamp]
      rw [List.filterMap_cons]
      rw [hfield]
      exact congrArg (kv :: ·) ihtl

/-- Bytes that can occur in a whole urlencoded query string. -/
def queryOK (c : Nat) : Bool := fieldOK c || c == 38

/-- Every byte of a joined query lies in the query set. -/
lemma mem_joinAmp_queryOK : ∀ fs : List Str,
    (∀ f ∈ fs, ∀ c ∈ f, fieldOK c = true) →
    ∀ c ∈ joinAmp fs, queryOK c = true := by
  intro fs
  induction fs with
  | nil => intro _ c hc; simp [joinAmp] at hc
  | cons f fs2 ih =>
    intro h c hc
    cases fs2 with
    | nil =>
      rw [show joinAmp [f] = f from rfl] at hc
      have := h f (List.mem_cons_self f []) c hc
      simp [queryOK, this]
    | cons g gs =>
      rw [show joinAmp (f :: g :: gs) = f ++ 38 :: joinAmp (g :: gs) from rfl] at hc
      rcases List.mem_append.mp hc with hc | hc
      · have := h f (List.mem_cons_self f (g :: gs)) c hc
        simp [queryOK, this]
      · rcases List.mem_cons.mp hc with hc | hc
        · subst hc; decide
        · exact ih (fun x hx => h x (List.mem_cons_of_mem f hx)) c hc

/-- takeBeforeByte leaves a string without the byte whole. -/
lemma takeBeforeByte_of_not_mem (sep : Nat) (s : Str) (h : sep ∉ s) :
    takeBeforeByte sep s = s := by
  induction s with
  | nil => rfl
  | cons x xs ih =>
    have hx : (x == sep) = false := by
      refine beq_eq_false_iff_ne.mpr fun hc => h ?_
      rw [hc]
      exact List.mem_cons_self sep xs
    have ihx := ih fun hm => h (List.mem_cons_of_mem x hm)
    simp [takeBeforeByte, hx, ihx]

/-- Byte bounds for the six parameter pairs of the authorization URL. -/
lemma authParams_bytes (cid ru : Str) (scopes : List Str)
    (hcid : ∀ b ∈ cid, b < 256) (hru : ∀ b ∈ ru, b < 256)
    (hsc : ∀ b ∈ joinSpace scopes, b < 256) :
    ∀ kv ∈ authParams cid ru scopes,
      (∀ b ∈ kv.1, b < 256) ∧ (∀ b ∈ kv.2, b < 256) := by
  intro kv hkv
  simp [authParams] at hkv
  rcases hkv with hkv | hkv | hkv | hkv | hkv | hkv <;> subst hkv
  · exact ⟨(by decide : ∀ b ∈ S "client_id", b < 256), hcid⟩
  · exact ⟨(by decide : ∀ b ∈ S "redirect_uri", b < 256), hru⟩
  · exact ⟨(by decide : ∀ b ∈ S "response_type", b < 256),
      (by decide : ∀ b ∈ S "code", b < 256)⟩
  · exact ⟨(by decide : ∀ b ∈ S "scope", b < 256), hsc⟩
  · exact ⟨(by decide : ∀ b ∈ S "access_type", b < 256),
      (by decide : ∀ b ∈ S "offline", b < 256)⟩
  · exact ⟨(by decide : ∀ b ∈ S "prompt", b < 256),
      (by decide : ∀ b ∈ S "consent", b < 256)⟩

/-- Every byte of the encoded authorization query is in the query set. -/
lemma mem_authQuery_queryOK (cid ru : Str) (scopes : List Str)
    (hcid : ∀ b ∈ cid, b < 256) (hru : ∀ b ∈ ru, b < 256)
    (hsc : ∀ b ∈ joinSpace scopes, b < 256) :
    ∀ c ∈ urlencodePairs (authParams cid ru scopes), queryOK c = true := by
  apply mem_joinAmp_queryOK
  intro f hf
  rcases List.mem_map.mp hf with ⟨kv, hkv, hkvf⟩
  obtain ⟨h1, h2⟩ := authParams_bytes cid ru scopes hcid hru hsc kv hkv
  rw [← hkvf]
  exact mem_encodePair_fieldOK kv h1 h2

/-- urlparse recovers exactly the encoded parameters as the query of the
built authorization URL. -/
lemma extractQuery_buildAuthUrl (cid ru : Str) (scopes : List Str)
    (hcid : ∀ b ∈ cid, b < 256) (hru : ∀ b ∈ ru, b < 256)
    (hsc : ∀ b ∈ joinSpace scopes, b < 256) :
    extractQuery (buildAuthUrl cid ru scopes) =
      urlencodePairs (authParams cid ru scopes) := by
  have hqok := mem_authQuery_queryOK cid ru scopes hcid hru hsc
  have hsplit : buildAuthUrl cid ru scopes =
      AUTH_URI ++ 63 :: urlencodePairs (authParams cid ru scopes) := by
    unfold buildAuthUrl
    rw [List.append_assoc]
    rfl
  have h35 : (35 : Nat) ∉ buildAuthUrl cid ru scopes := by
    rw [hsplit]
    intro hm
    rcases List.mem_append.mp hm with hm | hm
    · exact absurd hm (by decide)
    · rcases List.mem_cons.mp hm with hm | hm
      · exact absurd hm (by decide)
      · exact absurd (hqok 35 hm) (by decide)
  unfold extractQuery
  rw [takeBeforeByte_of_not_mem 35 _ h35, hsplit,
    splitFirst_append_of_not_mem 63 _ _ (by decide)]

/-- C3: decoding the query string of the built authorization URL yields
back exactly the client id, the redirect URI and the space-joined scope
string, together with the fixed response_type=code, access_type=offline
and prompt=consent parameters, in the order of the source dict. -/
theorem claim_C3 (cid ru : Str) (scopes : List Str)
    (hcid : ∀ b ∈ cid, b < 256) (hru : ∀ b ∈ ru, b < 256)
    (hsc : ∀ b ∈ joinSpace scopes, b < 256)
    (hcidne : cid ≠ []) (hrune : ru ≠ []) (hscne : joinSpace scopes ≠ []) :
    parseQs (extractQuery (buildAuthUrl cid ru scopes)) =
      [(S "client_id", [cid]),
       (S "redirect_uri", [ru]),
       (S "response_type", [S "code"]),
       (S "scope", [joinSpace scopes]),
       (S "access_type", [S "offline"]),
       (S "prompt", [S "consent"])] := by
  rw [extractQuery_buildAuthUrl cid ru scopes hcid hru hsc]
  unfold parseQs
  rw [parseQsl_urlencodePairs (authParams cid ru scopes) ?hall]
  case hall =>
    intro kv hkv
    obtain ⟨h1, h2⟩ := authParams_bytes cid ru scopes hcid hru hsc kv hkv
    refine ⟨h1, h2, ?_⟩
    simp [authParams] at hkv
    rcases hkv with hkv | hkv | hkv | hkv | hkv | hkv <;> subst hkv
    · exact hcidne
    · exact hrune
    · decide
    · exact hscne
    · decide
    · decide
  rfl

/-- Witness for claim_C3 at a concrete client id and the constants of the
script. -/
theorem claim_C3_witness :
    parseQs (extractQuery (buildAuthUrl (S "my-client-id") REDIRECT_URI SCOPES)) =
      [(S "client_id", [S "my-client-id"]),
       (S "redirect_uri", [REDIRECT_URI]),
       (S "response_type", [S "code"]),
       (S "scope", [joinSpace SCOPES]),
       (S "access_type", [S "offline"]),
       (S "prompt", [S "consent"])] :=
  claim_C3 (S "my-client-id") REDIRECT_URI SCOPES (by decide) (by decide)
    (by decide) (by decide) (by decide) (by decide)
